import Mathlib

/-!
Verification of the distributed-lock subsystem of the jiajia556/tool-box
repository against its specification.

The embedding models times and durations as integers (milliseconds).
Go's `time.Now().Before(e)` is `now < e`, `time.Now().After(d)` is
`d < now`.  The backend's atomic primitives (the in-process backend's
manager-wide mutex, Redis SETNX and Lua scripts) are modelled by making
each operation one atomic step on the shared state; a concurrent
execution is any interleaving, i.e. any sequence of such steps.
-/

namespace ToolBox

/-- Error values of the locker package (`part_001` lines 11-16) plus the
`fmt.Errorf` errors the redis backend produces.  `noClient` models the
error string "redis client not initialized" (redis.go line 285);
`configTypeMismatch` the "invalid config type" error (redis.go line 199);
`ctxCanceled` a context cancellation error. -/
inductive LockErr where
  | lockFailed
  | lockNotHeld
  | waitTimeout
  | invalidConfig
  | noClient
  | configTypeMismatch
  | ctxCanceled
  deriving Repr, DecidableEq

/-- Decidable equality on `Except`, used to settle concrete scenarios
by computation. -/
instance {ε α : Type} [DecidableEq ε] [DecidableEq α] :
    DecidableEq (Except ε α) := fun a b =>
  match a, b with
  | .error e, .error f =>
      if h : e = f then isTrue (by rw [h])
      else isFalse (fun hc => by cases hc; exact h rfl)
  | .error _, .ok _ => isFalse (fun hc => by cases hc)
  | .ok _, .error _ => isFalse (fun hc => by cases hc)
  | .ok a, .ok b =>
      if h : a = b then isTrue (by rw [h])
      else isFalse (fun hc => by cases hc; exact h rfl)

/-- Lock configuration (`part_001` lines 55-70).  Durations in ms. -/
structure Config where
  ttl : Int
  timeout : Int
  pollInterval : Int
  refreshInterval : Int
  autoClose : Bool
  deriving Repr, DecidableEq

/-- DefaultConfig (`part_001` lines 111-119): TTL 30s, Timeout 5s,
PollInterval 100ms, RefreshInterval 0, AutoClose true. -/
def defaultConfig : Config :=
  { ttl := 30000, timeout := 5000, pollInterval := 100,
    refreshInterval := 0, autoClose := true }

/-- WithTTL option (`part_001` lines 76-80). -/
def withTTL (t : Int) : Config → Config := fun c => { c with ttl := t }

/-- WithRefreshInterval option (`part_001` lines 97-101). -/
def withRefreshOpt (i : Int) : Config → Config :=
  fun c => { c with refreshInterval := i }

/-- WithTimeout option (`part_001` lines 83-87). -/
def withTimeout (t : Int) : Config → Config := fun c => { c with timeout := t }

/-- WithPollInterval option (`part_001` lines 90-94). -/
def withPollInterval (i : Int) : Config → Config :=
  fun c => { c with pollInterval := i }

/-- A backing record stored for a held key: the owner's token and the
absolute expiry time.  For the in-process backend this is the view
`(lock.token, lock.expireTime)` of the `memoryLocker` object stored in
the manager's map; for Redis it is the key's string value and expiry. -/
structure MemRecord where
  token : String
  expire : Int
  deriving Repr, DecidableEq

/-- The shared table of backing records, keyed by lock key: the mutex
guarded map `MemoryManager.locks` (memory.go lines 14-17), or the Redis
keyspace. -/
abbrev MemTable := List (String × MemRecord)

/-- Map lookup. -/
def lookupTable : MemTable → String → Option MemRecord
  | [], _ => none
  | (k, r) :: rest, key => if k = key then some r else lookupTable rest key

/-- Map deletion (Go `delete`). -/
def removeTable : MemTable → String → MemTable
  | [], _ => []
  | (k, r) :: rest, key =>
      if k = key then removeTable rest key else (k, r) :: removeTable rest key

/-- Map insertion/overwrite (Go `m[k] = v`). -/
def setTable (tbl : MemTable) (key : String) (r : MemRecord) : MemTable :=
  (key, r) :: removeTable tbl key

/-- Per-handle state of the in-process backend's `memoryLocker`
(memory.go lines 19-28): key, token, config, the handle's own
`expireTime` field and `locked` flag. -/
structure MemLocker where
  key : String
  token : String
  config : Config
  expireTime : Int
  locked : Bool
  deriving Repr, DecidableEq

/-- MemoryManager.New (memory.go lines 38-53): builds a handle from the
default config with the options applied; token generated at
handle-creation time; initial state Idle (`locked = false`,
zero-valued `expireTime`).  No validation of the config is performed
and the function cannot fail. -/
def memNew (key token : String) (opts : List (Config → Config)) : MemLocker :=
  { key := key, token := token,
    config := List.foldl (fun c o => o c) defaultConfig opts,
    expireTime := 0, locked := false }

/-- NewMemoryManager (memory.go lines 31-35): always returns an empty
manager table and a nil error; the config argument is ignored. -/
def newMemoryManager : Except LockErr MemTable := .ok []

/-- memoryLocker.TryLock (memory.go lines 56-75), one atomic step under
the manager mutex at time `now`: if a record for the key exists and is
still live (`now < expire`) return false; otherwise delete any expired
record and create a fresh one with this handle's token and expiry
`now + TTL`, set the handle Held, return true. -/
def memTryLock (ml : MemLocker) (tbl : MemTable) (now : Int) :
    Bool × MemLocker × MemTable :=
  match lookupTable tbl ml.key with
  | some rec =>
      if now < rec.expire then
        (false, ml, tbl)
      else
        let e := now + ml.config.ttl
        (true, { ml with expireTime := e, locked := true },
          setTable (removeTable tbl ml.key) ml.key ⟨ml.token, e⟩)
  | none =>
      let e := now + ml.config.ttl
      (true, { ml with expireTime := e, locked := true },
        setTable tbl ml.key ⟨ml.token, e⟩)

/-- memoryLocker.Unlock (memory.go lines 113-130): error if the handle
does not believe it is locked; error if no record for the key exists or
the record's token differs (in both error cases nothing is mutated,
in particular `locked` stays true); otherwise delete the record and set
the handle Idle. -/
def memUnlock (ml : MemLocker) (tbl : MemTable) :
    Except LockErr Unit × MemLocker × MemTable :=
  if ¬ ml.locked then (.error .lockNotHeld, ml, tbl)
  else
    match lookupTable tbl ml.key with
    | some rec =>
        if rec.token = ml.token then
          (.ok (), { ml with locked := false }, removeTable tbl ml.key)
        else (.error .lockNotHeld, ml, tbl)
    | none => (.error .lockNotHeld, ml, tbl)

/-- memoryLocker.TTL (memory.go lines 133-147): reads only the handle's
own fields; error when not locked or when the handle's own expiry has
passed (`ttl < 0`). -/
def memTTL (ml : MemLocker) (now : Int) : Except LockErr Int :=
  if ¬ ml.locked then .error .lockNotHeld
  else if ml.expireTime - now < 0 then .error .lockNotHeld
  else .ok (ml.expireTime - now)

/-- memoryLocker.Refresh (memory.go lines 150-161): error if no record
for the key exists or its token differs; otherwise set the expiry to
`now + ttl`.  The stored record is the owning handle object itself, so
updating `ml.expireTime` updates the table's record. -/
def memRefresh (ml : MemLocker) (tbl : MemTable) (now ttl : Int) :
    Except LockErr Unit × MemLocker × MemTable :=
  match lookupTable tbl ml.key with
  | some rec =>
      if rec.token = ml.token then
        (.ok (), { ml with expireTime := now + ttl },
          setTable tbl ml.key ⟨ml.token, now + ttl⟩)
      else (.error .lockNotHeld, ml, tbl)
  | none => (.error .lockNotHeld, ml, tbl)

/-- memoryLocker.Close (memory.go lines 174-184): if the handle believes
it is locked, delete whatever record is stored for the key — without
comparing tokens — and set the handle Idle.  Always returns nil. -/
def memClose (ml : MemLocker) (tbl : MemTable) : MemLocker × MemTable :=
  if ml.locked then ({ ml with locked := false }, removeTable tbl ml.key)
  else (ml, tbl)

/-- Context cancellation model: `ctxDone c t` is true when the optional
cancellation instant `c` has been reached at time `t`. -/
def ctxDone (cancelAt : Option Int) (t : Int) : Bool :=
  match cancelAt with
  | some c => decide (c ≤ t)
  | none => false

/-- Outcome of a blocking Lock call: success with the acquisition time
and final state, failure with an error and the failure time, or fuel
exhaustion (used only to express termination). -/
inductive LockOutcome (σ : Type) where
  | acquired : Int → σ → LockOutcome σ
  | failed : LockErr → Int → LockOutcome σ
  | fuelOut : LockOutcome σ
  deriving Repr, DecidableEq

/-- memoryLocker.Lock loop body (memory.go lines 78-110): each iteration
checks ctx cancellation, then the deadline (`now > deadline` fails with
WaitTimeout), then attempts TryLock, and on failure sleeps PollInterval
interruptibly before retrying.  Fuel bounds the number of iterations so
the model is total; the theorems show the fuel needed is finite. -/
def memLockLoop (cancelAt : Option Int) (deadline : Int) (ml : MemLocker) :
    Nat → Int → MemTable → LockOutcome (MemLocker × MemTable)
  | 0, _, _ => .fuelOut
  | fuel + 1, now, tbl =>
      if ctxDone cancelAt now then .failed .ctxCanceled now
      else if deadline < now then .failed .waitTimeout now
      else
        match memTryLock ml tbl now with
        | (true, ml', tbl') => .acquired now (ml', tbl')
        | (false, _, tbl') =>
            let next := now + ml.config.pollInterval
            if ctxDone cancelAt next then .failed .ctxCanceled next
            else memLockLoop cancelAt deadline ml fuel next tbl'

/-- memoryLocker.Lock (memory.go line 79): the deadline is call start
plus the configured acquire timeout. -/
def memLock (cancelAt : Option Int) (fuel : Nat) (ml : MemLocker)
    (tbl : MemTable) (start : Int) : LockOutcome (MemLocker × MemTable) :=
  memLockLoop cancelAt (start + ml.config.timeout) ml fuel start tbl

/-! The Redis backend (second file of the redis package,
src/cache/redis/redis.go lines 138-565).  The Redis keyspace is a table
of `(value, expiry)` records; Redis deletes expired keys on access, so
`rGet`/`rSetNX`/`rTTLq` treat a record with `expire ≤ now` as absent. -/

/-- Shared process-wide redis state: whether the global client is
initialized (`globalClient != nil`, redis.go lines 152-155) and the
keyspace. -/
structure RedisSys where
  clientUp : Bool
  store : MemTable
  deriving Repr, DecidableEq

/-- Per-handle state of `redisLocker` (redis.go lines 173-184).
`refreshRunning` models whether the renewal goroutine is active. -/
structure RedisLocker where
  key : String
  token : String
  config : Config
  locked : Bool
  refreshRunning : Bool
  deriving Repr, DecidableEq

/-- RedisManager.New (redis.go lines 250-276): default config plus
options, fresh token, initial state Idle; no validation, cannot fail. -/
def redisNew (key token : String) (opts : List (Config → Config)) : RedisLocker :=
  { key := key, token := token,
    config := List.foldl (fun c o => o c) defaultConfig opts,
    locked := false, refreshRunning := false }

/-- Redis GET at time `now`: the stored value if the key exists and has
not expired. -/
def rGet (store : MemTable) (k : String) (now : Int) : Option String :=
  match lookupTable store k with
  | some rec => if now < rec.expire then some rec.token else none
  | none => none

/-- Redis SET key value NX PX ttl at time `now`: creates the record only
if no live record exists; returns whether it was created. -/
def rSetNX (store : MemTable) (k v : String) (ttl now : Int) : Bool × MemTable :=
  match lookupTable store k with
  | some rec =>
      if now < rec.expire then (false, store)
      else (true, setTable store k ⟨v, now + ttl⟩)
  | none => (true, setTable store k ⟨v, now + ttl⟩)

/-- Redis TTL query: remaining ms if the key is live, negative (-2,
key does not exist) otherwise. -/
def rTTLq (store : MemTable) (k : String) (now : Int) : Int :=
  match lookupTable store k with
  | some rec => if now < rec.expire then rec.expire - now else -2
  | none => -2

/-- The delete-if-owner Lua script (redis.go lines 388-394), one atomic
step: GET the key, compare with the token, DEL on match.  Returns the
number of deleted keys and the new store. -/
def luaDelIfOwner (store : MemTable) (k tok : String) (now : Int) :
    Int × MemTable :=
  match rGet store k now with
  | some v => if v = tok then (1, removeTable store k) else (0, store)
  | none => (0, store)

/-- The extend-if-owner Lua script (redis.go lines 456-462), one atomic
step: GET the key, compare with the token, PEXPIRE (new expiry
`now + ttl`, value kept) on match. -/
def luaPexpireIfOwner (store : MemTable) (k tok : String) (ttl now : Int) :
    Int × MemTable :=
  match rGet store k now with
  | some v =>
      if v = tok then (1, setTable store k ⟨v, now + ttl⟩) else (0, store)
  | none => (0, store)

/-- redisLocker.TryLock (redis.go lines 279-315): error when the global
client is nil; error `ErrLockFailed` when this handle already believes
it is locked; otherwise SETNX — on success set the handle Held and, if
`RefreshInterval > 0`, start the renewal task; on a false SETNX return
`(false, nil)`. -/
def redisTryLock (rl : RedisLocker) (sys : RedisSys) (now : Int) :
    Except LockErr Bool × RedisLocker × RedisSys :=
  if ¬ sys.clientUp then (.error .noClient, rl, sys)
  else if rl.locked then (.error .lockFailed, rl, sys)
  else
    match rSetNX sys.store rl.key rl.token rl.config.ttl now with
    | (true, st') =>
        let rr := if 0 < rl.config.refreshInterval then true else rl.refreshRunning
        (.ok true, { rl with locked := true, refreshRunning := rr },
          { sys with store := st' })
    | (false, _) => (.ok false, rl, sys)

/-- redisLocker.Unlock (redis.go lines 353-407): client check; `locked`
check; stop the renewal task; GET the key — absent means the lease
expired, so set Idle and return nil; a different value means a new
owner, so return LockNotHeld leaving `locked` true; otherwise run the
atomic delete script and set Idle on a positive result. -/
def redisUnlock (rl : RedisLocker) (sys : RedisSys) (now : Int) :
    Except LockErr Unit × RedisLocker × RedisSys :=
  if ¬ sys.clientUp then (.error .noClient, rl, sys)
  else if ¬ rl.locked then (.error .lockNotHeld, rl, sys)
  else
    let rl₁ := { rl with refreshRunning := false }
    match rGet sys.store rl.key now with
    | none => (.ok (), { rl₁ with locked := false }, sys)
    | some v =>
        if v = rl.token then
          match luaDelIfOwner sys.store rl.key rl.token now with
          | (n, st') =>
              if 0 < n then
                (.ok (), { rl₁ with locked := false }, { sys with store := st' })
              else (.error .lockNotHeld, rl₁, { sys with store := st' })
        else (.error .lockNotHeld, rl₁, sys)

/-- redisLocker.TTL (redis.go lines 410-436): client check; `locked`
check; then a plain TTL query on the key — no token comparison — with a
negative result mapped to LockNotHeld. -/
def redisTTLOp (rl : RedisLocker) (sys : RedisSys) (now : Int) :
    Except LockErr Int :=
  if ¬ sys.clientUp then .error .noClient
  else if ¬ rl.locked then .error .lockNotHeld
  else if rTTLq sys.store rl.key now < 0 then .error .lockNotHeld
  else .ok (rTTLq sys.store rl.key now)

/-- redisLocker.Refresh (redis.go lines 439-474): client check; `locked`
check; then the atomic extend-if-owner script, a zero result mapped to
LockNotHeld. -/
def redisRefresh (rl : RedisLocker) (sys : RedisSys) (now ttl : Int) :
    Except LockErr Unit × RedisLocker × RedisSys :=
  if ¬ sys.clientUp then (.error .noClient, rl, sys)
  else if ¬ rl.locked then (.error .lockNotHeld, rl, sys)
  else
    match luaPexpireIfOwner sys.store rl.key rl.token ttl now with
    | (n, st') =>
        if 0 < n then (.ok (), rl, { sys with store := st' })
        else (.error .lockNotHeld, rl, { sys with store := st' })

/-- redisLocker.Lock loop (redis.go lines 318-350): identical structure
to the in-process Lock loop; a hard backend error from TryLock aborts
the loop immediately. -/
def redisLockLoop (cancelAt : Option Int) (deadline : Int) :
    Nat → Int → RedisLocker → RedisSys → LockOutcome (RedisLocker × RedisSys)
  | 0, _, _, _ => .fuelOut
  | fuel + 1, now, rl, sys =>
      if ctxDone cancelAt now then .failed .ctxCanceled now
      else if deadline < now then .failed .waitTimeout now
      else
        match redisTryLock rl sys now with
        | (.error e, _, _) => .failed e now
        | (.ok true, rl', sys') => .acquired now (rl', sys')
        | (.ok false, rl', sys') =>
            let next := now + rl.config.pollInterval
            if ctxDone cancelAt next then .failed .ctxCanceled next
            else redisLockLoop cancelAt deadline fuel next rl' sys'

/-- redisLocker.Lock (redis.go line 319): deadline is call start plus
the configured acquire timeout. -/
def redisLock (cancelAt : Option Int) (fuel : Nat) (rl : RedisLocker)
    (sys : RedisSys) (start : Int) : LockOutcome (RedisLocker × RedisSys) :=
  redisLockLoop cancelAt (start + rl.config.timeout) fuel start rl sys

/-- Result of a call to redisLocker.Unlock made while some mutex is
possibly already held by the caller: Go's `sync.Mutex` is not
reentrant, so when the caller already holds `rl.mu` the `rl.mu.Lock()`
inside Unlock (redis.go line 362) blocks forever (`none`). -/
def redisUnlockUnderMu (muHeld : Bool) (rl : RedisLocker) (sys : RedisSys)
    (now : Int) : Option (Except LockErr Unit × RedisLocker × RedisSys) :=
  if muHeld then none else some (redisUnlock rl sys now)

/-- Outcome of redisLocker.Close: normal completion with the final
handle and system state, or a permanent block (self-deadlock). -/
inductive CloseOutcome where
  | done : RedisLocker → RedisSys → CloseOutcome
  | deadlock : CloseOutcome
  deriving Repr, DecidableEq

/-- redisLocker.Close (redis.go lines 487-505): acquires `rl.mu` and
holds it for the whole body (`defer rl.mu.Unlock()`); if the handle is
Held it calls `rl.Unlock` with a 5s-timeout context — but Unlock starts
by acquiring `rl.mu` again, which can never succeed; otherwise it
cancels the context, stops the renewal task and deregisters from the
manager. -/
def redisClose (rl : RedisLocker) (sys : RedisSys) (now : Int) : CloseOutcome :=
  if rl.locked then
    match redisUnlockUnderMu true rl sys now with
    | none => .deadlock
    | some (_, rl', sys') => .done { rl' with refreshRunning := false } sys'
  else .done { rl with refreshRunning := false } sys

/-- Sequential `l.Close()` over a manager's handles (redis.go lines
548-550); `none` when one of them deadlocks. -/
def closeAll (sys : RedisSys) : List RedisLocker → Option RedisSys
  | [] => some sys
  | rl :: rest =>
      match redisClose rl sys 0 with
      | .deadlock => none
      | .done _ sys' => closeAll sys' rest

/-- RedisManager.Close (redis.go lines 544-561): closes every handle it
created, then closes the process-wide global client and sets it to
nil. -/
def redisManagerClose (handles : List RedisLocker) (sys : RedisSys) :
    Option RedisSys :=
  match closeAll sys handles with
  | none => none
  | some sys' => some { sys' with clientUp := false }

/-- NewRedisManager (redis.go lines 187-211): a config value of the
wrong type is rejected with a generic `fmt.Errorf` error (never
`ErrInvalidConfig`); otherwise the global client is initialized
(`pingOk` models whether the eager connectivity check succeeds) and the
manager is returned.  The lock Config is not involved at all. -/
def newRedisManager (validType pingOk : Bool) (sys : RedisSys) :
    Except LockErr RedisSys :=
  if ¬ validType then .error .configTypeMismatch
  else if ¬ pingOk then .error .noClient
  else .ok { sys with clientUp := true }

/-! Serialized traces.  The manager mutex (memory.go lines 57-58) and
Redis's single-threaded command/script execution make every TryLock one
atomic step, so any concurrent set of TryLock calls is observed as some
sequence of steps; the traces below run such a sequence. -/

/-- Run a serialized sequence of in-process TryLock steps, each given as
a handle and the (atomic) time at which its step executes; returns the
list of boolean results and the final table. -/
def runMemTryLocks (tbl : MemTable) : List (MemLocker × Int) → List Bool × MemTable
  | [] => ([], tbl)
  | c :: rest =>
      let step := memTryLock c.1 tbl c.2
      let recres := runMemTryLocks step.2.2 rest
      (step.1 :: recres.1, recres.2)

/-- Run a serialized sequence of redis TryLock steps. -/
def runRedisTryLocks (sys : RedisSys) :
    List (RedisLocker × Int) → List (Except LockErr Bool) × RedisSys
  | [] => ([], sys)
  | c :: rest =>
      let step := redisTryLock c.1 sys c.2
      let recres := runRedisTryLocks step.2.2 rest
      (step.1 :: recres.1, recres.2)

/-- The renewal goroutine of the redis backend (redis.go lines 508-529):
on every tick of the `RefreshInterval` ticker it calls
`Refresh(ctx, config.TTL)`.  `refreshTaskRun rl n sys` is the system
state after the first `n` ticks, the k-th tick firing at absolute time
`k * RefreshInterval`. -/
def refreshTaskRun (rl : RedisLocker) : Nat → RedisSys → RedisSys
  | 0, sys => sys
  | n + 1, sys =>
      (redisRefresh rl (refreshTaskRun rl n sys)
        ((n + 1 : Nat) * rl.config.refreshInterval) rl.config.ttl).2.2

/-! Helper lemmas. -/

theorem lookup_setTable_self (tbl : MemTable) (k : String) (r : MemRecord) :
    lookupTable (setTable tbl k r) k = some r := by
  simp [setTable, lookupTable]

theorem memTryLock_fail_eq {ml : MemLocker} {tbl : MemTable} {rec : MemRecord}
    {now : Int} (h1 : lookupTable tbl ml.key = some rec)
    (h2 : now < rec.expire) : memTryLock ml tbl now = (false, ml, tbl) := by
  unfold memTryLock
  rw [h1]
  simp [h2]

theorem memTryLock_res_or {ml : MemLocker} {tbl : MemTable} {now : Int} :
    (memTryLock ml tbl now).1 = true ∨ (memTryLock ml tbl now).2.2 = tbl := by
  unfold memTryLock
  cases hl : lookupTable tbl ml.key with
  | none => simp
  | some rec =>
      by_cases hc : now < rec.expire <;> simp [hc]

theorem memTryLock_succ_table {ml : MemLocker} {tbl : MemTable} {now : Int}
    (h : (memTryLock ml tbl now).1 = true) :
    lookupTable (memTryLock ml tbl now).2.2 ml.key
      = some ⟨ml.token, now + ml.config.ttl⟩ := by
  unfold memTryLock at h ⊢
  cases hl : lookupTable tbl ml.key with
  | none => simp [lookup_setTable_self]
  | some rec =>
      by_cases hc : now < rec.expire
      · simp [hl, hc] at h
      · simp [hc, lookup_setTable_self]

theorem runMemTryLocks_allFalse :
    ∀ (calls : List (MemLocker × Int)) (tbl : MemTable) (rec : MemRecord)
      (K : String), lookupTable tbl K = some rec →
      (∀ c ∈ calls, c.1.key = K ∧ c.2 < rec.expire) →
      runMemTryLocks tbl calls = (calls.map fun _ => false, tbl)
  | [], tbl, rec, K, _, _ => by simp [runMemTryLocks]
  | c :: rest, tbl, rec, K, hK, hall => by
      have hc := hall c (List.mem_cons_self c rest)
      have hfail : memTryLock c.1 tbl c.2 = (false, c.1, tbl) :=
        memTryLock_fail_eq (by rw [hc.1]; exact hK) hc.2
      have ih := runMemTryLocks_allFalse rest tbl rec K hK
        (fun c' hc' => hall c' (List.mem_cons_of_mem c hc'))
      simp [runMemTryLocks, hfail, ih]

theorem runMemTryLocks_count_le_one :
    ∀ (calls : List (MemLocker × Int)) (tbl : MemTable) (K : String)
      (a b : Int),
      (∀ c ∈ calls, c.1.key = K ∧ a ≤ c.2 ∧ c.2 < b ∧ b - a ≤ c.1.config.ttl) →
      ((runMemTryLocks tbl calls).1.count true) ≤ 1
  | [], tbl, K, a, b, _ => by simp [runMemTryLocks]
  | c :: rest, tbl, K, a, b, hall => by
      have hc := hall c (List.mem_cons_self c rest)
      have hrest := fun c' hc' => hall c' (List.mem_cons_of_mem c hc')
      by_cases hr : (memTryLock c.1 tbl c.2).1 = true
      · have hlook := memTryLock_succ_table hr
        rw [hc.1] at hlook
        have hfalse := runMemTryLocks_allFalse rest (memTryLock c.1 tbl c.2).2.2
          ⟨c.1.token, c.2 + c.1.config.ttl⟩ K hlook
          (fun c' hc' => by
            obtain ⟨hk', ha', hb', _⟩ := hrest c' hc'
            refine ⟨hk', ?_⟩
            have h1 := hc.2.1
            have h2 := hc.2.2.2
            show c'.2 < c.2 + c.1.config.ttl
            omega)
        simp [runMemTryLocks, hr, hfalse, List.count_replicate]
      · have hb : (memTryLock c.1 tbl c.2).1 = false := by
          revert hr; cases (memTryLock c.1 tbl c.2).1 <;> simp
        have ih := runMemTryLocks_count_le_one rest
          (memTryLock c.1 tbl c.2).2.2 K a b hrest
        simp [runMemTryLocks, hb]
        exact ih

theorem redisTryLock_fail_eq {rl : RedisLocker} {sys : RedisSys}
    {rec : MemRecord} {now : Int} (hc : sys.clientUp = true)
    (hlk : rl.locked = false) (h1 : lookupTable sys.store rl.key = some rec)
    (h2 : now < rec.expire) : redisTryLock rl sys now = (.ok false, rl, sys) := by
  unfold redisTryLock rSetNX
  rw [h1]
  simp [hc, hlk, h2]

theorem redisTryLock_res_or {rl : RedisLocker} {sys : RedisSys} {now : Int} :
    (redisTryLock rl sys now).1 = .ok true ∨ (redisTryLock rl sys now).2.2 = sys := by
  unfold redisTryLock rSetNX
  by_cases hc : sys.clientUp
  · by_cases hlk : rl.locked
    · simp [hc, hlk]
    · cases hl : lookupTable sys.store rl.key with
      | none => simp [hc, hlk]
      | some rec =>
          by_cases he : now < rec.expire <;> simp [hc, hlk, he]
  · simp [hc]

theorem redisTryLock_succ {rl : RedisLocker} {sys : RedisSys} {now : Int}
    (h : (redisTryLock rl sys now).1 = .ok true) :
    lookupTable (redisTryLock rl sys now).2.2.store rl.key
        = some ⟨rl.token, now + rl.config.ttl⟩
      ∧ (redisTryLock rl sys now).2.2.clientUp = sys.clientUp := by
  unfold redisTryLock rSetNX at h ⊢
  by_cases hc : sys.clientUp
  · by_cases hlk : rl.locked
    · simp [hc, hlk] at h
    · cases hl : lookupTable sys.store rl.key with
      | none => simp [hc, hlk, lookup_setTable_self]
      | some rec =>
          by_cases he : now < rec.expire
          · simp [hc, hlk, hl, he] at h
          · simp [hc, hlk, he, lookup_setTable_self]
  · simp [hc] at h

theorem runRedisTryLocks_allFalse :
    ∀ (calls : List (RedisLocker × Int)) (sys : RedisSys) (rec : MemRecord)
      (K : String), sys.clientUp = true → lookupTable sys.store K = some rec →
      (∀ c ∈ calls, c.1.key = K ∧ c.1.locked = false ∧ c.2 < rec.expire) →
      runRedisTryLocks sys calls = (calls.map fun _ => .ok false, sys)
  | [], sys, rec, K, _, _, _ => by simp [runRedisTryLocks]
  | c :: rest, sys, rec, K, hup, hK, hall => by
      have hc := hall c (List.mem_cons_self c rest)
      have hfail : redisTryLock c.1 sys c.2 = (.ok false, c.1, sys) :=
        redisTryLock_fail_eq hup hc.2.1 (by rw [hc.1]; exact hK) hc.2.2
      have ih := runRedisTryLocks_allFalse rest sys rec K hup hK
        (fun c' hc' => hall c' (List.mem_cons_of_mem c hc'))
      simp [runRedisTryLocks, hfail, ih]

/-- Success test on a TryLock result. -/
def isOkTrue : Except LockErr Bool → Bool
  | .ok true => true
  | _ => false

theorem isOkTrue_iff (r : Except LockErr Bool) :
    isOkTrue r = true ↔ r = Except.ok true := by
  cases r with
  | error e => simp [isOkTrue]
  | ok b => cases b <;> simp [isOkTrue]

/-- Number of successful results in a trace of redis TryLock steps. -/
def countOkTrue (rs : List (Except LockErr Bool)) : Nat :=
  List.countP (fun r => isOkTrue r) rs

theorem countOkTrue_nil : countOkTrue [] = 0 := rfl

theorem countOkTrue_cons (r : Except LockErr Bool)
    (rs : List (Except LockErr Bool)) :
    countOkTrue (r :: rs)
      = countOkTrue rs + (if isOkTrue r then 1 else 0) := by
  simp [countOkTrue, List.countP_cons]

theorem countOkTrue_map_false (l : List (RedisLocker × Int)) :
    countOkTrue (l.map fun _ => Except.ok false) = 0 := by
  induction l with
  | nil => rfl
  | cons c rest ih =>
      show countOkTrue (Except.ok false :: rest.map fun _ => Except.ok false) = 0
      rw [countOkTrue_cons, ih]
      simp [isOkTrue]

theorem runRedisTryLocks_count_le_one :
    ∀ (calls : List (RedisLocker × Int)) (sys : RedisSys) (K : String)
      (a b : Int), sys.clientUp = true →
      (∀ c ∈ calls, c.1.key = K ∧ c.1.locked = false ∧ a ≤ c.2 ∧ c.2 < b ∧
        b - a ≤ c.1.config.ttl) →
      countOkTrue (runRedisTryLocks sys calls).1 ≤ 1
  | [], sys, K, a, b, _, _ => by simp [runRedisTryLocks, countOkTrue_nil]
  | c :: rest, sys, K, a, b, hup, hall => by
      have hc := hall c (List.mem_cons_self c rest)
      have hrest := fun c' hc' => hall c' (List.mem_cons_of_mem c hc')
      by_cases hr : (redisTryLock c.1 sys c.2).1 = .ok true
      · obtain ⟨hlook, hup'⟩ := redisTryLock_succ hr
        rw [hc.1] at hlook
        rw [hup] at hup'
        have hfalse := runRedisTryLocks_allFalse rest
          (redisTryLock c.1 sys c.2).2.2 ⟨c.1.token, c.2 + c.1.config.ttl⟩ K
          hup' hlook
          (fun c' hc' => by
            obtain ⟨hk', hlk', ha', hb', _⟩ := hrest c' hc'
            refine ⟨hk', hlk', ?_⟩
            have h1 := hc.2.2.1
            have h2 := hc.2.2.2.2
            show c'.2 < c.2 + c.1.config.ttl
            omega)
        show countOkTrue ((redisTryLock c.1 sys c.2).1 ::
          (runRedisTryLocks (redisTryLock c.1 sys c.2).2.2 rest).1) ≤ 1
        rw [hfalse, countOkTrue_cons]
        have : isOkTrue (redisTryLock c.1 sys c.2).1 = true :=
          (isOkTrue_iff _).mpr hr
        rw [this, countOkTrue_map_false]
        simp
      · rcases @redisTryLock_res_or c.1 sys c.2 with hres | hsame
        · exact absurd hres hr
        · have ih := runRedisTryLocks_count_le_one rest
            (redisTryLock c.1 sys c.2).2.2 K a b (by rw [hsame]; exact hup)
            hrest
          show countOkTrue ((redisTryLock c.1 sys c.2).1 ::
            (runRedisTryLocks (redisTryLock c.1 sys c.2).2.2 rest).1) ≤ 1
          rw [countOkTrue_cons]
          have hfb : isOkTrue (redisTryLock c.1 sys c.2).1 = false := by
            rcases h' : isOkTrue (redisTryLock c.1 sys c.2).1 with _ | _
            · rfl
            · exact absurd ((isOkTrue_iff _).mp h') hr
          rw [hfb]
          simpa using ih

theorem memLockLoop_timeout {ml : MemLocker} {tbl : MemTable} {rec : MemRecord}
    {deadline : Int} (hrec : lookupTable tbl ml.key = some rec)
    (hpoll : 0 < ml.config.pollInterval)
    (hlive : deadline + ml.config.pollInterval ≤ rec.expire) :
    ∀ (fuel : Nat) (now : Int), now ≤ deadline + ml.config.pollInterval →
      deadline + ml.config.pollInterval
        < now + (fuel : Int) * ml.config.pollInterval →
      ∃ tEnd, memLockLoop none deadline ml fuel now tbl
          = .failed .waitTimeout tEnd
        ∧ tEnd ≤ deadline + ml.config.pollInterval
  | 0, now, h1, h2 => by
      push_cast at h2
      exact absurd h1 (by linarith)
  | fuel + 1, now, h1, h2 => by
      by_cases hd : deadline < now
      · exact ⟨now, by simp [memLockLoop, ctxDone, hd], h1⟩
      · push_neg at hd
        have hfail : memTryLock ml tbl now = (false, ml, tbl) :=
          memTryLock_fail_eq hrec (by linarith)
        have hstep : memLockLoop none deadline ml (fuel + 1) now tbl
            = memLockLoop none deadline ml fuel
                (now + ml.config.pollInterval) tbl := by
          simp [memLockLoop, ctxDone, not_lt.mpr hd, hfail]
        rw [hstep]
        refine memLockLoop_timeout hrec hpoll hlive fuel
          (now + ml.config.pollInterval) (by linarith) ?_
        have hc : ((fuel + 1 : Nat) : Int) * ml.config.pollInterval
            = (fuel : Int) * ml.config.pollInterval + ml.config.pollInterval := by
          push_cast
          ring
        rw [hc] at h2
        linarith

theorem redisTryLock_fullFail {rl : RedisLocker} {sys : RedisSys}
    {rec : MemRecord} {now : Int} (hup : sys.clientUp = true)
    (hlk : rl.locked = false) (h1 : lookupTable sys.store rl.key = some rec)
    (h2 : now < rec.expire) :
    redisTryLock rl sys now = (.ok false, rl, sys) :=
  redisTryLock_fail_eq hup hlk h1 h2

theorem redisLockLoop_timeout {rl : RedisLocker} {sys : RedisSys}
    {rec : MemRecord} {deadline : Int} (hup : sys.clientUp = true)
    (hlk : rl.locked = false)
    (hrec : lookupTable sys.store rl.key = some rec)
    (hpoll : 0 < rl.config.pollInterval)
    (hlive : deadline + rl.config.pollInterval ≤ rec.expire) :
    ∀ (fuel : Nat) (now : Int), now ≤ deadline + rl.config.pollInterval →
      deadline + rl.config.pollInterval
        < now + (fuel : Int) * rl.config.pollInterval →
      ∃ tEnd, redisLockLoop none deadline fuel now rl sys
          = .failed .waitTimeout tEnd
        ∧ tEnd ≤ deadline + rl.config.pollInterval
  | 0, now, h1, h2 => by
      push_cast at h2
      exact absurd h1 (by linarith)
  | fuel + 1, now, h1, h2 => by
      by_cases hd : deadline < now
      · exact ⟨now, by simp [redisLockLoop, ctxDone, hd], h1⟩
      · push_neg at hd
        have hfail : redisTryLock rl sys now = (.ok false, rl, sys) :=
          redisTryLock_fail_eq hup hlk hrec (by linarith)
        have hstep : redisLockLoop none deadline (fuel + 1) now rl sys
            = redisLockLoop none deadline fuel
                (now + rl.config.pollInterval) rl sys := by
          simp [redisLockLoop, ctxDone, not_lt.mpr hd, hfail]
        rw [hstep]
        refine redisLockLoop_timeout hup hlk hrec hpoll hlive fuel
          (now + rl.config.pollInterval) (by linarith) ?_
        have hc : ((fuel + 1 : Nat) : Int) * rl.config.pollInterval
            = (fuel : Int) * rl.config.pollInterval + rl.config.pollInterval := by
          push_cast
          ring
        rw [hc] at h2
        linarith

theorem refreshTaskRun_store {rl : RedisLocker} (hlk : rl.locked = true)
    (hI : 0 < rl.config.refreshInterval)
    (hIT : rl.config.refreshInterval < rl.config.ttl) :
    ∀ n : Nat,
      refreshTaskRun rl n ⟨true, [(rl.key, ⟨rl.token, rl.config.ttl⟩)]⟩
        = ⟨true, [(rl.key, ⟨rl.token,
            (n : Int) * rl.config.refreshInterval + rl.config.ttl⟩)]⟩
  | 0 => by
      show (⟨true, [(rl.key, ⟨rl.token, rl.config.ttl⟩)]⟩ : RedisSys) = _
      simp
  | n + 1 => by
      have ih := refreshTaskRun_store hlk hI hIT n
      show (redisRefresh rl
        (refreshTaskRun rl n ⟨true, [(rl.key, ⟨rl.token, rl.config.ttl⟩)]⟩)
        ((n + 1 : Nat) * rl.config.refreshInterval) rl.config.ttl).2.2 = _
      rw [ih]
      have hlt : ((n : Int) + 1) * rl.config.refreshInterval
          < (n : Int) * rl.config.refreshInterval + rl.config.ttl := by
        have hc : ((n : Int) + 1) * rl.config.refreshInterval
            = (n : Int) * rl.config.refreshInterval
              + rl.config.refreshInterval := by
          ring
        rw [hc]
        linarith
      simp [redisRefresh, hlk, luaPexpireIfOwner, rGet, lookupTable, hlt,
        setTable, removeTable]

/-! Claim theorems. -/

/-- C1: Mutual exclusion.  Over every serialization of a set of
concurrent TryLock calls on one key (the backend's atomic
primitives — the manager mutex for the in-process backend, SETNX and
Lua scripts for the remote backend — serialize them): (1)/(2) while a
live lease on K exists, every TryLock on K executed before that lease's
expiry returns false, for both backends, so at most one (namely zero)
of the calls returns true; (3)/(4) more generally, for any set of
serialized TryLock calls on K all falling in a window no longer than
each caller's TTL — so that no lease acquired by one of the calls can
expire before the window ends — at most one call returns true. -/
theorem C1_mutual_exclusion :
    (∀ (calls : List (MemLocker × Int)) (tbl : MemTable) (rec : MemRecord)
        (K : String), lookupTable tbl K = some rec →
        (∀ c ∈ calls, c.1.key = K ∧ c.2 < rec.expire) →
        ((runMemTryLocks tbl calls).1.count true) ≤ 1)
    ∧ (∀ (calls : List (RedisLocker × Int)) (sys : RedisSys)
        (rec : MemRecord) (K : String), sys.clientUp = true →
        lookupTable sys.store K = some rec →
        (∀ c ∈ calls, c.1.key = K ∧ c.1.locked = false ∧ c.2 < rec.expire) →
        countOkTrue (runRedisTryLocks sys calls).1 ≤ 1)
    ∧ (∀ (calls : List (MemLocker × Int)) (tbl : MemTable) (K : String)
        (a b : Int),
        (∀ c ∈ calls, c.1.key = K ∧ a ≤ c.2 ∧ c.2 < b ∧
          b - a ≤ c.1.config.ttl) →
        ((runMemTryLocks tbl calls).1.count true) ≤ 1)
    ∧ (∀ (calls : List (RedisLocker × Int)) (sys : RedisSys) (K : String)
        (a b : Int), sys.clientUp = true →
        (∀ c ∈ calls, c.1.key = K ∧ c.1.locked = false ∧ a ≤ c.2 ∧
          c.2 < b ∧ b - a ≤ c.1.config.ttl) →
        countOkTrue (runRedisTryLocks sys calls).1 ≤ 1) := by
  refine ⟨?_, ?_, ?_, ?_⟩
  · intro calls tbl rec K h1 h2
    rw [runMemTryLocks_allFalse calls tbl rec K h1 h2]
    simp [List.count_replicate]
  · intro calls sys rec K hup h1 h2
    rw [runRedisTryLocks_allFalse calls sys rec K hup h1 h2]
    exact le_of_eq_of_le (countOkTrue_map_false calls) (by simp)
  · intro calls tbl K a b h
    exact runMemTryLocks_count_le_one calls tbl K a b h
  · intro calls sys K a b hup h
    exact runRedisTryLocks_count_le_one calls sys K a b hup h

/-- Witness for C1 at concrete inputs: a table holding a live lease on
"k" until time 1000 and two competing calls at times 100 and 150, and a
redis race of two fresh handles inside a 200ms window. -/
theorem C1_mutual_exclusion_witness :
    ((runMemTryLocks [("k", ⟨"t0", 1000⟩)]
        [(memNew "k" "tA" [withTTL 200], 100),
         (memNew "k" "tB" [withTTL 200], 150)]).1.count true) ≤ 1
    ∧ countOkTrue (runRedisTryLocks ⟨true, []⟩
        [(redisNew "k" "tA" [withTTL 200], 0),
         (redisNew "k" "tB" [withTTL 200], 50)]).1 ≤ 1 :=
  ⟨C1_mutual_exclusion.1 _ _ ⟨"t0", 1000⟩ "k" (by decide) (by decide),
   C1_mutual_exclusion.2.2.2 _ _ "k" 0 200 (by decide) (by decide)⟩

/-- C2: Expired records are treated as absent.  In both backends a
TryLock at a time at or past the stored record's expiry succeeds,
overwriting the expired record with a fresh one carrying the caller's
token and expiry `now + TTL`. -/
theorem C2_expired_treated_as_absent :
    (∀ (ml : MemLocker) (tbl : MemTable) (rec : MemRecord) (now : Int),
      lookupTable tbl ml.key = some rec → rec.expire ≤ now →
      (memTryLock ml tbl now).1 = true ∧
      lookupTable (memTryLock ml tbl now).2.2 ml.key
        = some ⟨ml.token, now + ml.config.ttl⟩)
    ∧ (∀ (rl : RedisLocker) (sys : RedisSys) (rec : MemRecord) (now : Int),
      sys.clientUp = true → rl.locked = false →
      lookupTable sys.store rl.key = some rec → rec.expire ≤ now →
      (redisTryLock rl sys now).1 = .ok true ∧
      lookupTable (redisTryLock rl sys now).2.2.store rl.key
        = some ⟨rl.token, now + rl.config.ttl⟩) := by
  constructor
  · intro ml tbl rec now hrec hle
    have h1 : (memTryLock ml tbl now).1 = true := by
      unfold memTryLock
      rw [hrec]
      simp [not_lt.mpr hle]
    exact ⟨h1, memTryLock_succ_table h1⟩
  · intro rl sys rec now hup hlk hrec hle
    have h1 : (redisTryLock rl sys now).1 = .ok true := by
      unfold redisTryLock rSetNX
      rw [hrec]
      simp [hup, hlk, not_lt.mpr hle]
    exact ⟨h1, (redisTryLock_succ h1).1⟩

/-- Witness for C2, the spec's expiry-takeover instance: a lease with
TTL 200 acquired at time 0 by one handle, and a TryLock by a different
handle at time 250, in each backend. -/
theorem C2_expired_treated_as_absent_witness :
    ((memTryLock (memNew "k" "t2" [withTTL 200])
        (memTryLock (memNew "k" "t1" [withTTL 200]) [] 0).2.2 250).1 = true
      ∧ lookupTable (memTryLock (memNew "k" "t2" [withTTL 200])
          (memTryLock (memNew "k" "t1" [withTTL 200]) [] 0).2.2 250).2.2 "k"
        = some ⟨"t2", 450⟩)
    ∧ ((redisTryLock (redisNew "k" "t2" [withTTL 200])
        (redisTryLock (redisNew "k" "t1" [withTTL 200]) ⟨true, []⟩ 0).2.2
        250).1 = .ok true
      ∧ lookupTable (redisTryLock (redisNew "k" "t2" [withTTL 200])
          (redisTryLock (redisNew "k" "t1" [withTTL 200]) ⟨true, []⟩ 0).2.2
          250).2.2.store "k" = some ⟨"t2", 450⟩) :=
  ⟨C2_expired_treated_as_absent.1 _ _ ⟨"t1", 200⟩ 250 (by decide) (by decide),
   C2_expired_treated_as_absent.2 _ _ ⟨"t1", 200⟩ 250 (by decide) (by decide)
     (by decide) (by decide)⟩

/-- C3 counterexample: the claim that a stale handle's TTL call reports
LockNotHeld fails for the redis backend.  Handle "t1" acquires "k" at
time 0 with TTL 200; the lease expires and handle "t2" reacquires "k"
at time 250; at time 260 the stale handle's TTL call — which queries
the key's remaining TTL with no token comparison (redis.go lines
410-436) — returns the new holder's remaining lease of 190ms with no
error, rather than LockNotHeld. -/
theorem C3_stale_ttl_counterexample :
    redisTTLOp
        (redisTryLock (redisNew "k" "t1" [withTTL 200]) ⟨true, []⟩ 0).2.1
        (redisTryLock (redisNew "k" "t2" [withTTL 200])
          (redisTryLock (redisNew "k" "t1" [withTTL 200]) ⟨true, []⟩ 0).2.2
          250).2.2 260
      = .ok 190
    ∧ redisTTLOp
        (redisTryLock (redisNew "k" "t1" [withTTL 200]) ⟨true, []⟩ 0).2.1
        (redisTryLock (redisNew "k" "t2" [withTTL 200])
          (redisTryLock (redisNew "k" "t1" [withTTL 200]) ⟨true, []⟩ 0).2.2
          250).2.2 260
      ≠ .error .lockNotHeld := by
  constructor
  · decide
  · decide

/-- C3 amended: once a handle's lease has expired and been reacquired
under a different token, Unlock and Refresh return LockNotHeld in both
backends, and the in-process TTL returns LockNotHeld (it reads the
handle's own expired timestamp); the redis TTL however returns the
current record's — the new holder's — remaining TTL without error,
because it performs no token comparison. -/
theorem C3_stale_owner_amended :
    (∀ (ml : MemLocker) (tbl : MemTable) (rec : MemRecord) (now t : Int),
      ml.locked = true → lookupTable tbl ml.key = some rec →
      rec.token ≠ ml.token → ml.expireTime < now →
      (memUnlock ml tbl).1 = .error .lockNotHeld
      ∧ (memRefresh ml tbl now t).1 = .error .lockNotHeld
      ∧ memTTL ml now = .error .lockNotHeld)
    ∧ (∀ (rl : RedisLocker) (sys : RedisSys) (rec : MemRecord) (now t : Int),
      sys.clientUp = true → rl.locked = true →
      lookupTable sys.store rl.key = some rec → rec.token ≠ rl.token →
      now < rec.expire →
      (redisUnlock rl sys now).1 = .error .lockNotHeld
      ∧ (redisRefresh rl sys now t).1 = .error .lockNotHeld
      ∧ redisTTLOp rl sys now = .ok (rec.expire - now)) := by
  constructor
  · intro ml tbl rec now t hlk hrec hne hexp
    refine ⟨?_, ?_, ?_⟩
    · unfold memUnlock
      rw [hrec]
      simp [hlk, hne]
    · unfold memRefresh
      rw [hrec]
      simp [hne]
    · unfold memTTL
      simp [hlk]
      omega
  · intro rl sys rec now t hup hlk hrec hne hlive
    have hget : rGet sys.store rl.key now = some rec.token := by
      unfold rGet
      rw [hrec]
      simp [hlive]
    refine ⟨?_, ?_, ?_⟩
    · unfold redisUnlock
      rw [hget]
      simp [hup, hlk, hne]
    · unfold redisRefresh luaPexpireIfOwner
      rw [hget]
      simp [hup, hlk, hne]
    · unfold redisTTLOp rTTLq
      rw [hrec]
      simp [hup, hlk, hlive]
      omega

/-- Witness for C3 amended: the concrete stale-owner scenario of the
counterexample, in both backends. -/
theorem C3_stale_owner_amended_witness :
    ((memUnlock (memTryLock (memNew "k" "t1" [withTTL 200]) [] 0).2.1
        (memTryLock (memNew "k" "t2" [withTTL 200])
          (memTryLock (memNew "k" "t1" [withTTL 200]) [] 0).2.2 250).2.2).1
      = .error .lockNotHeld
    ∧ (memRefresh (memTryLock (memNew "k" "t1" [withTTL 200]) [] 0).2.1
        (memTryLock (memNew "k" "t2" [withTTL 200])
          (memTryLock (memNew "k" "t1" [withTTL 200]) [] 0).2.2 250).2.2
        260 200).1 = .error .lockNotHeld
    ∧ memTTL (memTryLock (memNew "k" "t1" [withTTL 200]) [] 0).2.1 260
      = .error .lockNotHeld)
    ∧ ((redisUnlock (redisTryLock (redisNew "k" "t1" [withTTL 200])
          ⟨true, []⟩ 0).2.1
        (redisTryLock (redisNew "k" "t2" [withTTL 200])
          (redisTryLock (redisNew "k" "t1" [withTTL 200]) ⟨true, []⟩ 0).2.2
          250).2.2 260).1 = .error .lockNotHeld
    ∧ (redisRefresh (redisTryLock (redisNew "k" "t1" [withTTL 200])
          ⟨true, []⟩ 0).2.1
        (redisTryLock (redisNew "k" "t2" [withTTL 200])
          (redisTryLock (redisNew "k" "t1" [withTTL 200]) ⟨true, []⟩ 0).2.2
          250).2.2 260 200).1 = .error .lockNotHeld
    ∧ redisTTLOp (redisTryLock (redisNew "k" "t1" [withTTL 200])
          ⟨true, []⟩ 0).2.1
        (redisTryLock (redisNew "k" "t2" [withTTL 200])
          (redisTryLock (redisNew "k" "t1" [withTTL 200]) ⟨true, []⟩ 0).2.2
          250).2.2 260 = .ok 190) :=
  ⟨C3_stale_owner_amended.1 _ _ ⟨"t2", 450⟩ 260 200 (by decide) (by decide)
      (by decide) (by decide),
   C3_stale_owner_amended.2 _ _ ⟨"t2", 450⟩ 260 200 (by decide) (by decide)
      (by decide) (by decide) (by decide)⟩

/-- C4 counterexample: the claim that an Unlock finding a mismatched
token leaves the handle Idle fails.  After "t1"'s lease on "k" expires
and "t2" reacquires, "t1"'s Unlock returns LockNotHeld but the handle's
`locked` flag remains true (memory.go lines 121-124 return before any
state change), not false as the claim requires. -/
theorem C4_unlock_state_counterexample :
    (memUnlock (memTryLock (memNew "k" "t1" [withTTL 200]) [] 0).2.1
        (memTryLock (memNew "k" "t2" [withTTL 200])
          (memTryLock (memNew "k" "t1" [withTTL 200]) [] 0).2.2 250).2.2).1
      = .error .lockNotHeld
    ∧ (memUnlock (memTryLock (memNew "k" "t1" [withTTL 200]) [] 0).2.1
        (memTryLock (memNew "k" "t2" [withTTL 200])
          (memTryLock (memNew "k" "t1" [withTTL 200]) [] 0).2.2
          250).2.2).2.1.locked = true := by
  constructor
  · decide
  · decide

/-- C4 amended: an Unlock that finds the backing record absent or
bearing a different token returns LockNotHeld but leaves the handle's
`locked` flag true (Held) in both backends — with one exception: the
redis backend treats an absent record as a successful unlock, returning
nil and setting the handle Idle. -/
theorem C4_unlock_lost_ownership_amended :
    (∀ (ml : MemLocker) (tbl : MemTable) (rec : MemRecord),
      ml.locked = true → lookupTable tbl ml.key = some rec →
      rec.token ≠ ml.token →
      memUnlock ml tbl = (.error .lockNotHeld, ml, tbl)
      ∧ (memUnlock ml tbl).2.1.locked = true)
    ∧ (∀ (ml : MemLocker) (tbl : MemTable),
      ml.locked = true → lookupTable tbl ml.key = none →
      memUnlock ml tbl = (.error .lockNotHeld, ml, tbl)
      ∧ (memUnlock ml tbl).2.1.locked = true)
    ∧ (∀ (rl : RedisLocker) (sys : RedisSys) (now : Int) (v : String),
      sys.clientUp = true → rl.locked = true →
      rGet sys.store rl.key now = some v → v ≠ rl.token →
      redisUnlock rl sys now
        = (.error .lockNotHeld, { rl with refreshRunning := false }, sys)
      ∧ (redisUnlock rl sys now).2.1.locked = true)
    ∧ (∀ (rl : RedisLocker) (sys : RedisSys) (now : Int),
      sys.clientUp = true → rl.locked = true →
      rGet sys.store rl.key now = none →
      redisUnlock rl sys now
        = (.ok (), { rl with locked := false, refreshRunning := false },
            sys)) := by
  refine ⟨?_, ?_, ?_, ?_⟩
  · intro ml tbl rec hlk hrec hne
    have he : memUnlock ml tbl = (.error .lockNotHeld, ml, tbl) := by
      unfold memUnlock
      rw [hrec]
      simp [hlk, hne]
    exact ⟨he, by rw [he]; exact hlk⟩
  · intro ml tbl hlk hrec
    have he : memUnlock ml tbl = (.error .lockNotHeld, ml, tbl) := by
      unfold memUnlock
      rw [hrec]
      simp [hlk]
    exact ⟨he, by rw [he]; exact hlk⟩
  · intro rl sys now v hup hlk hget hne
    have he : redisUnlock rl sys now
        = (.error .lockNotHeld, { rl with refreshRunning := false }, sys) := by
      unfold redisUnlock
      rw [hget]
      simp [hup, hlk, hne]
    exact ⟨he, by rw [he]; exact hlk⟩
  · intro rl sys now hup hlk hget
    unfold redisUnlock
    rw [hget]
    simp [hup, hlk]

/-- Witness for C4 amended: the mismatched-token scenario of the
counterexample for the in-process backend, and concrete absent-record
and mismatch scenarios for the redis backend. -/
theorem C4_unlock_lost_ownership_amended_witness :
    memUnlock (memTryLock (memNew "k" "t1" [withTTL 200]) [] 0).2.1
        (memTryLock (memNew "k" "t2" [withTTL 200])
          (memTryLock (memNew "k" "t1" [withTTL 200]) [] 0).2.2 250).2.2
      = (.error .lockNotHeld,
          (memTryLock (memNew "k" "t1" [withTTL 200]) [] 0).2.1,
          (memTryLock (memNew "k" "t2" [withTTL 200])
            (memTryLock (memNew "k" "t1" [withTTL 200]) [] 0).2.2 250).2.2)
    ∧ redisUnlock ⟨"k", "t1", defaultConfig, true, true⟩
        ⟨true, [("k", ⟨"t2", 450⟩)]⟩ 260
      = (.error .lockNotHeld, ⟨"k", "t1", defaultConfig, true, false⟩,
          ⟨true, [("k", ⟨"t2", 450⟩)]⟩)
    ∧ redisUnlock ⟨"k", "t1", defaultConfig, true, true⟩ ⟨true, []⟩ 260
      = (Except.ok (), ⟨"k", "t1", defaultConfig, false, false⟩,
          ⟨true, []⟩) :=
  ⟨(C4_unlock_lost_ownership_amended.1 _ _ ⟨"t2", 450⟩ (by decide) (by decide)
      (by decide)).1,
   (C4_unlock_lost_ownership_amended.2.2.1 _ _ 260 "t2" (by decide) (by decide)
      (by decide) (by decide)).1,
   C4_unlock_lost_ownership_amended.2.2.2 _ _ 260 (by decide) (by decide)
      (by decide)⟩

/-- C5, evaluated at the failing input: memoryLocker.Close (memory.go
lines 174-184) deletes the backing record for its key without any token
comparison.  Handle "t1" acquires "k" at time 0 with TTL 200; the lease
expires and handle "t2" reacquires at time 250, so the table holds
"t2"'s live record until 450; the stale handle "t1" — whose `locked`
flag is still true — then calls Close, which removes "t2"'s record even
though the record's token "t2" differs from the token "t1" that Close
implicitly presents.  This contradicts the invariant that a mutating
operation presenting a mismatched token must fail without side
effect. -/
theorem C5_close_deletes_foreign_record :
    lookupTable (memTryLock (memNew "k" "t2" [withTTL 200])
        (memTryLock (memNew "k" "t1" [withTTL 200]) [] 0).2.2 250).2.2 "k"
      = some ⟨"t2", 450⟩
    ∧ (memTryLock (memNew "k" "t1" [withTTL 200]) [] 0).2.1.token = "t1"
    ∧ (memTryLock (memNew "k" "t1" [withTTL 200]) [] 0).2.1.locked = true
    ∧ lookupTable
        (memClose (memTryLock (memNew "k" "t1" [withTTL 200]) [] 0).2.1
          (memTryLock (memNew "k" "t2" [withTTL 200])
            (memTryLock (memNew "k" "t1" [withTTL 200]) [] 0).2.2
            250).2.2).2 "k"
      = none
    ∧ ("t2" : String) ≠ "t1" := by
  refine ⟨by decide, by decide, by decide, by decide, by decide⟩

/-- C6 counterexample: the claim fails for the in-process backend,
which has no renewal task at all — memoryLocker.TryLock (memory.go
lines 56-75) starts nothing even when `RefreshInterval > 0`.  A handle
acquires "k" at time 0 with TTL 200 and RefreshInterval 50 and never
unlocks; the claim requires competing TryLocks to keep failing
throughout, yet a competing TryLock at time 500 succeeds because the
lease lapsed at 200 and was never renewed. -/
theorem C6_memory_no_renewal_counterexample :
    (memTryLock (memNew "k" "t1" [withTTL 200, withRefreshOpt 50]) []
        0).2.1.locked = true
    ∧ (memTryLock (memNew "k" "t2" [])
        (memTryLock (memNew "k" "t1" [withTTL 200, withRefreshOpt 50]) []
          0).2.2 500).1 = true := by
  refine ⟨by decide, by decide⟩

/-- C6 amended: only the redis backend has a renewal task.  (1) A
successful redis TryLock with `RefreshInterval > 0` leaves the handle
Held with the renewal task running.  (2) With the renewal task ticking
at multiples of RefreshInterval — each tick calling Refresh with the
configured TTL (redis.go lines 508-529) — a handle that acquired at
time 0 keeps, at any time `t` between the n-th and (n+1)-th tick, a
positive remaining TTL, and a competing TryLock on the same key at `t`
fails.  The in-process backend starts no renewal task, so its lease
simply lapses at TTL (see the counterexample). -/
theorem C6_renewal_amended :
    (∀ (rl : RedisLocker) (sys : RedisSys) (now : Int),
      sys.clientUp = true → rl.locked = false →
      0 < rl.config.refreshInterval →
      (redisTryLock rl sys now).1 = .ok true →
      (redisTryLock rl sys now).2.1.locked = true
      ∧ (redisTryLock rl sys now).2.1.refreshRunning = true)
    ∧ (∀ (rl rl2 : RedisLocker) (n : Nat) (t : Int),
      rl.locked = true → 0 < rl.config.refreshInterval →
      rl.config.refreshInterval < rl.config.ttl →
      (n : Int) * rl.config.refreshInterval ≤ t →
      t ≤ ((n : Int) + 1) * rl.config.refreshInterval →
      rl2.key = rl.key → rl2.locked = false →
      redisTTLOp rl
          (refreshTaskRun rl n ⟨true, [(rl.key, ⟨rl.token, rl.config.ttl⟩)]⟩)
          t
        = .ok ((n : Int) * rl.config.refreshInterval + rl.config.ttl - t)
      ∧ 0 < (n : Int) * rl.config.refreshInterval + rl.config.ttl - t
      ∧ (redisTryLock rl2
          (refreshTaskRun rl n ⟨true, [(rl.key, ⟨rl.token, rl.config.ttl⟩)]⟩)
          t).1 = .ok false) := by
  constructor
  · intro rl sys now hup hlk hri h
    unfold redisTryLock rSetNX at h ⊢
    cases hl : lookupTable sys.store rl.key with
    | none => simp [hup, hlk, hri]
    | some rec =>
        by_cases he : now < rec.expire
        · simp [hup, hlk, hl, he] at h
        · simp [hup, hlk, hl, he, hri]
  · intro rl rl2 n t hlk hI hIT ht1 ht2 hk2 hlk2
    have hstore := refreshTaskRun_store hlk hI hIT n
    rw [hstore]
    have hle : t < (n : Int) * rl.config.refreshInterval + rl.config.ttl := by
      have hc : ((n : Int) + 1) * rl.config.refreshInterval
          = (n : Int) * rl.config.refreshInterval
            + rl.config.refreshInterval := by ring
      rw [hc] at ht2
      linarith
    refine ⟨?_, by linarith, ?_⟩
    · unfold redisTTLOp rTTLq
      simp [hlk, lookupTable, hle]
      omega
    · have hfull := @redisTryLock_fail_eq rl2
        ⟨true, [(rl.key, ⟨rl.token,
          (n : Int) * rl.config.refreshInterval + rl.config.ttl⟩)]⟩
        ⟨rl.token, (n : Int) * rl.config.refreshInterval + rl.config.ttl⟩
        t rfl hlk2 (by simp [lookupTable, hk2]) hle
      rw [hfull]

/-- Witness for C6 amended: a redis handle with TTL 200 and
RefreshInterval 50, queried at time 420 after 8 renewal ticks (the
last at 400), and a fresh competing handle; and a fresh handle whose
TryLock at time 0 starts the renewal task. -/
theorem C6_renewal_amended_witness :
    ((redisTryLock (redisNew "k" "t1" [withTTL 200, withRefreshOpt 50])
        ⟨true, []⟩ 0).2.1.locked = true
      ∧ (redisTryLock (redisNew "k" "t1" [withTTL 200, withRefreshOpt 50])
          ⟨true, []⟩ 0).2.1.refreshRunning = true)
    ∧ (redisTTLOp ⟨"k", "t1", ⟨200, 5000, 100, 50, true⟩, true, true⟩
          (refreshTaskRun ⟨"k", "t1", ⟨200, 5000, 100, 50, true⟩, true, true⟩
            8 ⟨true, [("k", ⟨"t1", 200⟩)]⟩) 420
        = .ok 180
      ∧ 0 < (180 : Int)
      ∧ (redisTryLock (redisNew "k" "t2" [])
          (refreshTaskRun ⟨"k", "t1", ⟨200, 5000, 100, 50, true⟩, true, true⟩
            8 ⟨true, [("k", ⟨"t1", 200⟩)]⟩) 420).1 = .ok false) := by
  constructor
  · exact C6_renewal_amended.1 _ _ 0 (by decide) (by decide) (by decide)
      (by decide)
  · have h := C6_renewal_amended.2
      ⟨"k", "t1", ⟨200, 5000, 100, 50, true⟩, true, true⟩
      (redisNew "k" "t2" []) 8 420 (by decide) (by decide) (by decide)
      (by norm_num) (by norm_num) (by decide) (by decide)
    refine ⟨?_, by norm_num, ?_⟩
    · have := h.1
      norm_num at this
      convert this using 2
    · have := h.2.2
      exact this

/-- C7: blocking Lock is bounded by its timeout.  In both backends, a
Lock loop run against a key whose record stays live past the whole
window returns WaitTimeout at a time no later than one PollInterval
past the deadline `start + AcquireTimeout`, given enough fuel
(`timeout + poll < fuel * poll`) — in particular it terminates.  The
loop body itself (memLockLoop/redisLockLoop) checks ctx cancellation,
then the deadline, then attempts TryLock, then sleeps PollInterval
interruptibly, exactly as memory.go lines 78-110 and redis.go lines
318-350 do. -/
theorem C7_lock_timeout_bound :
    (∀ (ml : MemLocker) (tbl : MemTable) (rec : MemRecord) (fuel : Nat)
        (start : Int),
      lookupTable tbl ml.key = some rec →
      0 < ml.config.pollInterval → 0 ≤ ml.config.timeout →
      start + ml.config.timeout + ml.config.pollInterval ≤ rec.expire →
      ml.config.timeout + ml.config.pollInterval
        < (fuel : Int) * ml.config.pollInterval →
      ∃ tEnd, memLock none fuel ml tbl start = .failed .waitTimeout tEnd
        ∧ tEnd ≤ start + ml.config.timeout + ml.config.pollInterval)
    ∧ (∀ (rl : RedisLocker) (sys : RedisSys) (rec : MemRecord) (fuel : Nat)
        (start : Int),
      sys.clientUp = true → rl.locked = false →
      lookupTable sys.store rl.key = some rec →
      0 < rl.config.pollInterval → 0 ≤ rl.config.timeout →
      start + rl.config.timeout + rl.config.pollInterval ≤ rec.expire →
      rl.config.timeout + rl.config.pollInterval
        < (fuel : Int) * rl.config.pollInterval →
      ∃ tEnd, redisLock none fuel rl sys start = .failed .waitTimeout tEnd
        ∧ tEnd ≤ start + rl.config.timeout + rl.config.pollInterval) := by
  constructor
  · intro ml tbl rec fuel start hrec hpoll htime hlive hfuel
    exact memLockLoop_timeout hrec hpoll
      (by linarith) fuel start (by linarith) (by linarith)
  · intro rl sys rec fuel start hup hlk hrec hpoll htime hlive hfuel
    exact redisLockLoop_timeout hup hlk hrec hpoll
      (by linarith) fuel start (by linarith) (by linarith)

/-- Witness for C7: the spec's blocking-bound instance — AcquireTimeout
100ms, PollInterval 20ms, against a key held by another party until
time 100000 — in both backends, with fuel 7 (140 > 120). -/
theorem C7_lock_timeout_bound_witness :
    (∃ tEnd, memLock none 7
        (memNew "k" "t9" [withTTL 200, withTimeout 100, withPollInterval 20])
        [("k", ⟨"other", 100000⟩)] 0 = .failed .waitTimeout tEnd
      ∧ tEnd ≤ 0 + 100 + 20)
    ∧ (∃ tEnd, redisLock none 7
        (redisNew "k" "t9" [withTTL 200, withTimeout 100, withPollInterval 20])
        ⟨true, [("k", ⟨"other", 100000⟩)]⟩ 0 = .failed .waitTimeout tEnd
      ∧ tEnd ≤ 0 + 100 + 20) :=
  ⟨C7_lock_timeout_bound.1 _ _ ⟨"other", 100000⟩ 7 0 (by decide) (by decide)
      (by decide) (by decide) (by decide),
   C7_lock_timeout_bound.2 _ _ ⟨"other", 100000⟩ 7 0 (by decide) (by decide)
      (by decide) (by decide) (by decide) (by decide) (by decide)⟩

/-- C8, evaluated at the failing input: redisLocker.Close on a Held
handle self-deadlocks.  Close (redis.go lines 487-495) acquires
`rl.mu` and, while holding it, calls `rl.Unlock` — whose first action
on the handle is `rl.mu.Lock()` (redis.go line 362).  Go's sync.Mutex
is not reentrant, so the Unlock call blocks forever and Close never
returns, despite the 5-second grace context it created for the
release.  An Idle handle's Close completes normally and is safe to
repeat. -/
theorem C8_close_held_deadlocks :
    (⟨"k", "t1", defaultConfig, true, true⟩ : RedisLocker).locked = true
    ∧ redisClose ⟨"k", "t1", defaultConfig, true, true⟩
        ⟨true, [("k", ⟨"t1", 30000⟩)]⟩ 100 = .deadlock
    ∧ redisClose ⟨"k", "t1", defaultConfig, false, false⟩ ⟨true, []⟩ 100
      = .done ⟨"k", "t1", defaultConfig, false, false⟩ ⟨true, []⟩
    ∧ memClose
        (memClose ⟨"k", "t1", defaultConfig, 30000, true⟩
          [("k", ⟨"t1", 30000⟩)]).1
        (memClose ⟨"k", "t1", defaultConfig, 30000, true⟩
          [("k", ⟨"t1", 30000⟩)]).2
      = (⟨"k", "t1", defaultConfig, 30000, false⟩, []) := by
  refine ⟨by decide, by decide, by decide, by decide⟩

/-- C9 counterexample: no configuration validation exists.  A handle is
constructed — not rejected — with TTL = 0 (and can even acquire a lock
with it), a handle is constructed with RefreshInterval 400 ≥ TTL 200,
and NewMemoryManager always returns a manager with a nil error. -/
theorem C9_no_validation_counterexample :
    (memNew "k" "t" [withTTL 0]).config.ttl = 0
    ∧ (memNew "k" "t" [withTTL 0]).locked = false
    ∧ (memTryLock (memNew "k" "t" [withTTL 0]) [] 5).1 = true
    ∧ (redisNew "k" "t" [withTTL 200, withRefreshOpt 400]).config.ttl = 200
    ∧ (redisNew "k" "t" [withTTL 200,
        withRefreshOpt 400]).config.refreshInterval = 400
    ∧ newMemoryManager = .ok [] := by
  refine ⟨by decide, by decide, by decide, by decide, by decide, by decide⟩

/-- C9 amended: configurations with `TTL ≤ 0`, or with
`RefreshInterval > 0` and `RefreshInterval ≥ TTL`, are accepted, not
rejected: handle construction cannot fail and carries the invalid
config unchanged, NewMemoryManager always succeeds, and no operation of
either backend ever returns ErrInvalidConfig (the error is declared in
`part_001` line 15 but dead); the redis manager constructor rejects
only a config value of the wrong Go type, with a generic `fmt.Errorf`
error, not ErrInvalidConfig. -/
theorem C9_invalid_config_accepted_amended :
    (∀ (cfg : Config) (key tok : String),
      cfg.ttl ≤ 0 ∨ (0 < cfg.refreshInterval ∧ cfg.ttl ≤ cfg.refreshInterval) →
      (memNew key tok [fun _ => cfg]).config = cfg
      ∧ (memNew key tok [fun _ => cfg]).locked = false
      ∧ (redisNew key tok [fun _ => cfg]).config = cfg
      ∧ newMemoryManager = .ok [])
    ∧ (∀ (ml : MemLocker) (tbl : MemTable),
        (memUnlock ml tbl).1 ≠ .error .invalidConfig)
    ∧ (∀ (ml : MemLocker) (now : Int),
        memTTL ml now ≠ .error .invalidConfig)
    ∧ (∀ (ml : MemLocker) (tbl : MemTable) (now t : Int),
        (memRefresh ml tbl now t).1 ≠ .error .invalidConfig)
    ∧ (∀ (rl : RedisLocker) (sys : RedisSys) (now : Int),
        (redisTryLock rl sys now).1 ≠ .error .invalidConfig)
    ∧ (∀ (rl : RedisLocker) (sys : RedisSys) (now : Int),
        (redisUnlock rl sys now).1 ≠ .error .invalidConfig)
    ∧ (∀ (rl : RedisLocker) (sys : RedisSys) (now : Int),
        redisTTLOp rl sys now ≠ .error .invalidConfig)
    ∧ (∀ (rl : RedisLocker) (sys : RedisSys) (now t : Int),
        (redisRefresh rl sys now t).1 ≠ .error .invalidConfig)
    ∧ (∀ (vt pk : Bool) (sys : RedisSys),
        newRedisManager vt pk sys ≠ .error .invalidConfig) := by
  refine ⟨?_, ?_, ?_, ?_, ?_, ?_, ?_, ?_, ?_⟩
  · intro cfg key tok _
    exact ⟨rfl, rfl, rfl, rfl⟩
  · intro ml tbl
    unfold memUnlock
    repeat' split
    all_goals simp
  · intro ml now
    unfold memTTL
    repeat' split
    all_goals simp
  · intro ml tbl now t
    unfold memRefresh
    repeat' split
    all_goals simp
  · intro rl sys now
    unfold redisTryLock
    repeat' split
    all_goals simp
  · intro rl sys now
    unfold redisUnlock
    repeat' split
    all_goals simp
  · intro rl sys now
    unfold redisTTLOp
    repeat' split
    all_goals simp
  · intro rl sys now t
    unfold redisRefresh
    repeat' split
    all_goals simp
  · intro vt pk sys
    unfold newRedisManager
    repeat' split
    all_goals simp

/-- Witness for C9 amended: the TTL = 0 configuration. -/
theorem C9_invalid_config_accepted_amended_witness :
    (memNew "k" "t" [fun _ => ⟨0, 5000, 100, 0, true⟩]).config
        = ⟨0, 5000, 100, 0, true⟩
    ∧ (memNew "k" "t" [fun _ => ⟨0, 5000, 100, 0, true⟩]).locked = false
    ∧ (redisNew "k" "t" [fun _ => ⟨0, 5000, 100, 0, true⟩]).config
        = ⟨0, 5000, 100, 0, true⟩
    ∧ newMemoryManager = .ok [] :=
  C9_invalid_config_accepted_amended.1 ⟨0, 5000, 100, 0, true⟩ "k" "t"
    (Or.inl (by decide))

/-- C10: closing a RedisManager nils the process-wide shared client.
Whenever RedisManager.Close returns (it first closes each of its own
handles, then closes the global client and sets it to nil, redis.go
lines 544-561), the shared client is down, and every subsequent
operation — TryLock, Lock, Unlock, TTL, Refresh — on every redis lock
handle whatsoever (the handle is universally quantified, so in
particular handles created by a different manager instance, which share
the same global client) returns the "redis client not initialized"
error instead of reaching the store. -/
theorem C10_manager_close_kills_client :
    ∀ (handles : List RedisLocker) (sys sys2 : RedisSys),
      redisManagerClose handles sys = some sys2 →
      sys2.clientUp = false
      ∧ ∀ (rl : RedisLocker) (now t : Int),
        (redisTryLock rl sys2 now).1 = .error .noClient
        ∧ (redisUnlock rl sys2 now).1 = .error .noClient
        ∧ redisTTLOp rl sys2 now = .error .noClient
        ∧ (redisRefresh rl sys2 now t).1 = .error .noClient
        ∧ (0 ≤ rl.config.timeout → ∀ fuel : Nat, 0 < fuel →
            redisLock none fuel rl sys2 now = .failed .noClient now) := by
  intro handles sys sys2 hclose
  have hdown : sys2.clientUp = false := by
    unfold redisManagerClose at hclose
    cases hm : closeAll sys handles with
    | none => rw [hm] at hclose; simp at hclose
    | some s =>
        rw [hm] at hclose
        simp at hclose
        rw [← hclose]
  refine ⟨hdown, ?_⟩
  intro rl now t
  have hup : ¬ sys2.clientUp = true := by rw [hdown]; simp
  refine ⟨?_, ?_, ?_, ?_, ?_⟩
  · unfold redisTryLock
    simp [hdown]
  · unfold redisUnlock
    simp [hdown]
  · unfold redisTTLOp
    simp [hdown]
  · unfold redisRefresh
    simp [hdown]
  · intro htime fuel hfuel
    cases fuel with
    | zero => exact absurd hfuel (by simp)
    | succ f =>
        have htry : redisTryLock rl sys2 now = (.error .noClient, rl, sys2) := by
          unfold redisTryLock
          simp [hdown]
        unfold redisLock redisLockLoop
        simp [ctxDone, htry]
        omega

/-- Witness for C10: an empty manager over a live client; after Close
the client is down and a fresh handle's operations all fail with the
client-not-initialized error. -/
theorem C10_manager_close_kills_client_witness :
    ((⟨false, []⟩ : RedisSys).clientUp = false)
    ∧ ((redisTryLock (redisNew "k" "t" []) ⟨false, []⟩ 0).1
        = .error .noClient
      ∧ (redisUnlock (redisNew "k" "t" []) ⟨false, []⟩ 0).1
        = .error .noClient
      ∧ redisTTLOp (redisNew "k" "t" []) ⟨false, []⟩ 0 = .error .noClient
      ∧ (redisRefresh (redisNew "k" "t" []) ⟨false, []⟩ 0 100).1
        = .error .noClient
      ∧ (0 ≤ (redisNew "k" "t" []).config.timeout → ∀ fuel : Nat, 0 < fuel →
          redisLock none fuel (redisNew "k" "t" []) ⟨false, []⟩ 0
            = .failed .noClient 0)) :=
  ⟨(C10_manager_close_kills_client [] ⟨true, []⟩ ⟨false, []⟩ (by decide)).1,
   (C10_manager_close_kills_client [] ⟨true, []⟩ ⟨false, []⟩ (by decide)).2
     (redisNew "k" "t" []) 0 100⟩

end ToolBox
